import Mathlib

/-!
Verification of the Future Self Bridge and Memory Manager subsystem of the
schema-icu-sdk repository. The definitions below are a shallow embedding of
the JavaScript source files `src/core/future-self-wrapper.js` (class
FutureSelfBridge) and `src/core/memory-manager.js` (class MemoryManager).

Modelling conventions:
- JavaScript numbers used as counters are modelled as Nat; the user-facing
  maxRetries option is modelled as Int because the source compares a Nat
  counter against it and callers may pass negative values.
- Absent object fields are modelled as Option values; the destructuring
  defaults of the source are applied through Option.getD.
- Confidence arithmetic is modelled over the rationals with the exact
  decimal literals of the source.
- HTTP transport, the summarization collaborator, SHA-256 hashing and the
  wall clock are external collaborators; each is passed in explicitly as an
  environment of functions, so the state transitions themselves stay pure.
- Persistence (file save and load) is I/O outside the model; all Memory
  Manager claims start from a fresh, non-loaded instance as the spec states.
-/

set_option maxHeartbeats 1000000

namespace SchemaICU

/-- Substring test mirroring JavaScript String.prototype.includes. -/
def jsIncludes (s sub : String) : Bool :=
  decide (sub.toList <:+: s.toList)

/-- A response schema: a type tag, named properties each carrying a primitive
type tag (the display descriptions of the source are elided), and the list of
required property names. From getDefaultSchema in future-self-wrapper.js. -/
structure Schema where
  type_ : String
  properties : List (String × String)
  required : List String
deriving DecidableEq, Repr

/-- Default schema keyed by agent type, from
FutureSelfBridge.getDefaultSchema: base fields always present, `email` agent
types add subject and tone, `summary` agent types add keyPoints. -/
def getDefaultSchema (agentType : String) : Schema :=
  let baseSchema : Schema :=
    { type_ := "object"
      properties :=
        [("response", "string"), ("includesCode", "boolean"), ("code", "string"),
         ("continue", "boolean"), ("questionForUser", "boolean"),
         ("question", "string"), ("missingContext", "array")]
      required :=
        ["response", "includesCode", "code", "continue", "questionForUser",
         "missingContext"] }
  let withEmail :=
    if jsIncludes agentType "email" then
      { baseSchema with
          properties := baseSchema.properties ++ [("subject", "string"), ("tone", "string")]
          required := baseSchema.required ++ ["subject", "tone"] }
    else baseSchema
  if jsIncludes agentType "summary" then
    { withEmail with
        properties := withEmail.properties ++ [("keyPoints", "array")]
        required := withEmail.required ++ ["keyPoints"] }
  else withEmail

/-- Raw agent response consumed by the self-awareness analyzer. Optional
fields model JSON fields that may be absent; agent-specific extra payload
fields are irrelevant to the analyzed claims. -/
structure ExecResult where
  response : String := ""
  missingContext : Option (List String) := none
  continue_ : Option Bool := none
  questionForUser : Option Bool := none
  question : Option String := none
deriving DecidableEq, Repr

/-- Clamp of the final confidence score, from
Math.max(0, Math.min(1, score)) in calculateConfidence. -/
def clamp01 (x : ℚ) : ℚ := max 0 (min 1 x)

/-- FutureSelfBridge.calculateConfidence: start at 1.0, subtract 0.2 per
missing-context item capped at 3 items, 0.15 for a continuation request,
0.15 for an open question, clamp to the unit interval. -/
def calculateConfidence (execution : ExecResult) : ℚ :=
  let score : ℚ := 1
  let score :=
    match execution.missingContext with
    | some l => if 0 < l.length then score - 2/10 * ((min l.length 3 : ℕ) : ℚ) else score
    | none => score
  let score := if execution.continue_ == some true then score - 15/100 else score
  let score := if execution.questionForUser == some true then score - 15/100 else score
  clamp01 score

/-- Derived self-awareness record, from FutureSelfBridge.analyzeSelfAwareness. -/
structure SelfAwareness where
  complete : Bool
  missingContext : List String
  needsContinue : Bool
  hasQuestion : Bool
  question : Option String
  confidence : ℚ
deriving DecidableEq, Repr

/-- FutureSelfBridge.analyzeSelfAwareness: an execution is complete when the
missing-context list (absent treated as empty) is empty and neither the
continuation flag nor the question flag is strictly the boolean true. -/
def analyzeSelfAwareness (execution : ExecResult) : SelfAwareness :=
  let missingContext := execution.missingContext.getD []
  let needsContinue := execution.continue_ == some true
  let hasQuestion := execution.questionForUser == some true
  { complete := (missingContext.length == 0) && !needsContinue && !hasQuestion
    missingContext := missingContext
    needsContinue := needsContinue
    hasQuestion := hasQuestion
    question := execution.question
    confidence := calculateConfidence execution }

/-- A JavaScript value is falsy exactly when it is undefined or the boolean
false, for fields modelled as Option Bool. -/
def optFalsy (o : Option Bool) : Prop := o = none ∨ o = some false

instance (o : Option Bool) : Decidable (optFalsy o) := by
  unfold optFalsy; infer_instance

/-- Context accumulated across retry attempts inside FutureSelfBridge.execute:
the caller context (kept opaque as a list of string key-value pairs) plus the
fields the loop itself spreads in on each retry. The previousAttempts counter
starts implicitly at 0, matching the (x || 0) + 1 idiom of the source. -/
structure AccCtx where
  caller : List (String × String)
  previousAttempts : ℕ
  missingContextFromPreviousRun : List String
  previousSchema : Option Schema
  previousResponse : Option String
deriving DecidableEq, Repr

/-- The context object of the request FutureSelfBridge.executeWithSchema
sends: the accumulated context spread together with the planned schema under
expectedSchema and the selfAwareMode flag. There is no signatureAlgorithm
field here; that value goes on the top level of the request. -/
structure ExecContext where
  acc : AccCtx
  expectedSchema : Schema
  selfAwareMode : Bool
deriving DecidableEq, Repr

/-- Request body FutureSelfBridge.executeWithSchema posts to the agent
endpoint. signatureAlgorithm is none exactly when the field is absent from
the JSON body. -/
structure ExecRequestBody where
  query : String
  context : ExecContext
  signatureAlgorithm : Option String
deriving DecidableEq, Repr

/-- FutureSelfBridge.executeWithSchema, request-building part: merges the
schema into the context, sets selfAwareMode, and attaches signatureAlgorithm
at top level when it is truthy (a nonempty string; the empty string is falsy
in JavaScript). -/
def mkExecRequestBody (query : String) (acc : AccCtx) (schema : Schema)
    (signatureAlgorithm : String) : ExecRequestBody :=
  { query := query
    context := { acc := acc, expectedSchema := schema, selfAwareMode := true }
    signatureAlgorithm :=
      if signatureAlgorithm = "" then none else some signatureAlgorithm }

/-- Environment of external collaborators for one orchestration: the planner
HTTP call (per attempt; none covers both a transport failure and a response
without a schema field, the two cases in which planSchema falls back to the
default schema) and the agent execution HTTP call, which receives the request
body and either returns the parsed agent response or fails with a message. -/
structure FSEnv where
  plan : ℕ → Option Schema
  exec : ℕ → ExecRequestBody → Except String ExecResult

/-- FutureSelfBridge.planSchema: posts a planning request; on transport
failure or a missing schema field it degrades to the default schema for the
agent type and never throws. -/
def planSchema (env : FSEnv) (agentType : String) (attempt : ℕ) : Schema :=
  (env.plan attempt).getD (getDefaultSchema agentType)

/-- The futureSelfBridge block attached to the returned result. -/
structure BridgeMeta where
  schemaPlanned : Schema
  selfAwareness : SelfAwareness
  attempts : ℕ
  complete : Bool
  reason : Option String
deriving DecidableEq, Repr

/-- Result object of FutureSelfBridge.execute: the execution result spread
together with the futureSelfBridge metadata block. -/
structure BridgeResult where
  execution : ExecResult
  futureSelfBridge : BridgeMeta
deriving DecidableEq, Repr

/-- How one call of FutureSelfBridge.execute resolves: a JavaScript return
value (some result object, or none for resolving to undefined after the loop
exits), or a thrown error. -/
inductive ExecOutcome where
  | returned : Option BridgeResult → ExecOutcome
  | threw : String → ExecOutcome
deriving DecidableEq, Repr

/-- Trace of one FutureSelfBridge.execute call. cycles counts the
plan/execute/analyze loop iterations begun and sent records the request
bodies passed to the agent endpoint, in order; both instrument the loop for
the statements below without altering its control flow. -/
structure ExecTrace where
  outcome : ExecOutcome
  cycles : ℕ
  sent : List ExecRequestBody
deriving DecidableEq, Repr

/-- The while loop of FutureSelfBridge.execute. Each iteration plans a
schema, posts the execution request, and analyzes the response; a transport
error in the execution step is rethrown wrapped (planSchema never throws and
the analyzer is pure, so the try/catch only fires there); a complete analysis
returns; an incomplete one returns with a reason when autoRetry is off or the
attempt counter has reached maxRetries, and otherwise extends the accumulated
context and loops. -/
def executeLoop (env : FSEnv) (agentType query signatureAlgorithm : String)
    (autoRetry : Bool) (maxRetries : ℤ) (attempt : ℕ) (acc : AccCtx) : ExecTrace :=
  if _hle : (attempt : ℤ) ≤ maxRetries then
    let schema := planSchema env agentType attempt
    let body := mkExecRequestBody query acc schema signatureAlgorithm
    match env.exec attempt body with
    | Except.error msg =>
        { outcome := ExecOutcome.threw
            ("Future Self Bridge execution failed: Agent execution failed: " ++ msg)
          cycles := 1, sent := [body] }
    | Except.ok execution =>
        let awareness := analyzeSelfAwareness execution
        if awareness.complete then
          { outcome := ExecOutcome.returned (some
              { execution := execution
                futureSelfBridge :=
                  { schemaPlanned := schema, selfAwareness := awareness
                    attempts := attempt + 1, complete := true, reason := none } })
            cycles := 1, sent := [body] }
        else if hstop : autoRetry = false ∨ maxRetries ≤ (attempt : ℤ) then
          { outcome := ExecOutcome.returned (some
              { execution := execution
                futureSelfBridge :=
                  { schemaPlanned := schema, selfAwareness := awareness
                    attempts := attempt + 1, complete := false
                    reason := some (if maxRetries ≤ (attempt : ℤ) then
                      "max_retries_reached" else "auto_retry_disabled") } })
            cycles := 1, sent := [body] }
        else
          let acc2 : AccCtx :=
            { caller := acc.caller
              previousAttempts := acc.previousAttempts + 1
              missingContextFromPreviousRun := awareness.missingContext
              previousSchema := some schema
              previousResponse := some execution.response }
          let rest := executeLoop env agentType query signatureAlgorithm
            autoRetry maxRetries (attempt + 1) acc2
          { outcome := rest.outcome, cycles := rest.cycles + 1
            sent := body :: rest.sent }
  else
    { outcome := ExecOutcome.returned none, cycles := 0, sent := [] }
termination_by (maxRetries + 1 - (attempt : ℤ)).toNat
decreasing_by
  simp only [not_or] at hstop
  omega

/-- Caller options of FutureSelfBridge.execute; none models an omitted
option, resolved by the destructuring defaults of the source. -/
structure ExecOptions where
  context : List (String × String) := []
  signatureAlgorithm : Option String := none
  autoRetry : Option Bool := none
  maxRetries : Option ℤ := none
deriving DecidableEq, Repr

/-- FutureSelfBridge.execute: resolve the option defaults (signatureAlgorithm
defaults to the string PQ, autoRetry to true, maxRetries to 3), start from
the caller context, and run the retry loop from attempt 0. -/
def execute (env : FSEnv) (agentType query : String) (opts : ExecOptions) : ExecTrace :=
  let signatureAlgorithm := opts.signatureAlgorithm.getD "PQ"
  let autoRetry := opts.autoRetry.getD true
  let maxRetries := opts.maxRetries.getD 3
  let accumulatedContext : AccCtx :=
    { caller := opts.context, previousAttempts := 0
      missingContextFromPreviousRun := [], previousSchema := none
      previousResponse := none }
  executeLoop env agentType query signatureAlgorithm autoRetry maxRetries 0
    accumulatedContext

/-! ### Memory Manager (src/core/memory-manager.js) -/

/-- JavaScript Array.prototype.slice(0, e) with a possibly negative end
index: a negative index counts from the end of the array. -/
def jsSliceTo {α : Type} (l : List α) (e : ℤ) : List α :=
  if e < 0 then l.take ((l.length : ℤ) + e).toNat else l.take e.toNat

/-- Caller argument of MemoryManager.addInteraction; ts defaults to the
current clock when absent, metadata to the empty object. -/
structure InteractionInput where
  role : String
  text : String
  ts : Option ℕ := none
  metadata : List (String × String) := []
deriving DecidableEq, Repr

/-- A signed interaction held in active memory. -/
structure Interaction where
  role : String
  text : String
  ts : ℕ
  hash : String
  metadata : List (String × String)
  signatureAlgorithm : String
deriving DecidableEq, Repr

/-- Range block of a summary; metaLevel is only ever set (to true) on
meta-summaries, so the absent field of a plain summary is modelled as
false. The end timestamp field is named stop because end is a keyword. -/
structure SummaryRange where
  start : ℕ
  stop : ℕ
  count : ℕ
  metaLevel : Bool := false
deriving DecidableEq, Repr

/-- A summary of compressed interactions (or, when range.metaLevel is set, a
meta-summary of compressed summaries). -/
structure Summary where
  range : SummaryRange
  text : String
  ts : ℕ
  hash : String
  signatureAlgorithm : String
deriving DecidableEq, Repr

/-- MemoryManager state. Persistence settings and file I/O are outside the
model; the state mirrors the in-memory fields interactions, summaries and
totalCount plus the configuration the mutating operations read. -/
structure MemoryManager where
  maxInteractions : ℕ
  maxSummaries : ℕ
  signatureAlgorithm : String
  summaryAgentConfigured : Bool
  interactions : List Interaction
  summaries : List Summary
  totalCount : ℕ
deriving DecidableEq, Repr

/-- Constructor options of MemoryManager; none models an omitted option,
resolved by the destructuring defaults of the source. summaryAgent records
whether a summarization collaborator was supplied. -/
structure MemoryOptions where
  maxInteractions : Option ℕ := none
  maxSummaries : Option ℕ := none
  signatureAlgorithm : Option String := none
  summaryAgent : Bool := false
deriving DecidableEq, Repr

/-- The MemoryManager constructor, for a fresh instance before any
persistence load: empty lists and zero totalCount, with defaults
maxInteractions 21, maxSummaries 3 and signature algorithm PQ. -/
def MemoryManager.init (o : MemoryOptions) : MemoryManager :=
  { maxInteractions := o.maxInteractions.getD 21
    maxSummaries := o.maxSummaries.getD 3
    signatureAlgorithm := o.signatureAlgorithm.getD "PQ"
    summaryAgentConfigured := o.summaryAgent
    interactions := []
    summaries := []
    totalCount := 0 }

/-- External collaborators of one addInteraction call: the wall clock, the
summarization collaborator (none models a thrown summarize call, triggering
the local fallback; the value collapses result.summary and result.response
into the text used), and SHA-256 over the stringified defining fields,
treated as an opaque collaborator producing a hex string from the hashed
fields (role, text, ts) of an interaction or (text, ts) of a summary. -/
structure MemEnv where
  now : ℕ
  summarize : String → Option String
  hashInteraction : String → String → ℕ → String
  hashSummary : String → ℕ → String

/-- MemoryManager._createBasicSummary: the deterministic local fallback
summary built from turn counts and truncated user-message snippets. -/
def createBasicSummary (interactions : List Interaction) : String :=
  let userMessages := interactions.filter (fun i => i.role == "user")
  let assistantMessages := interactions.filter (fun i => i.role == "assistant")
  "Summary of " ++ toString interactions.length ++ " interactions: " ++
    toString userMessages.length ++ " user queries, " ++
    toString assistantMessages.length ++ " assistant responses. Topics discussed: [" ++
    String.intercalate ", " (userMessages.map (fun m => m.text.take 50)) ++ "...]"

/-- MemoryManager._compressOldSummaries: fold the oldest
(length - maxSummaries + 1) summaries into one meta-summary whose count
aggregates the folded counts and whose metaLevel is set, and put it in front
of the remaining summaries. -/
def compressOldSummaries (env : MemEnv) (st : MemoryManager) : MemoryManager :=
  let toCompress := jsSliceTo st.summaries ((st.summaries.length : ℤ) - st.maxSummaries + 1)
  match toCompress with
  | [] => st
  | first :: rest =>
    let combinedText := String.intercalate "\n\n" ((first :: rest).map (fun s => s.text))
    let fallbackText := String.intercalate " | " ((first :: rest).map (fun s => s.text))
    let metaSummaryText :=
      if st.summaryAgentConfigured then
        match env.summarize
          ("Create a comprehensive meta-summary of these summaries:\n\n" ++ combinedText) with
        | some t => t
        | none => fallbackText
      else fallbackText
    let last := (rest.getLast?).getD first
    let metaSummary : Summary :=
      { range :=
          { start := first.range.start
            stop := last.range.stop
            count := ((first :: rest).map (fun s => s.range.count)).sum
            metaLevel := true }
        text := metaSummaryText
        ts := env.now
        hash := env.hashSummary metaSummaryText env.now
        signatureAlgorithm := st.signatureAlgorithm }
    { st with summaries := metaSummary :: st.summaries.drop (first :: rest).length }

/-- The guarded call at the end of MemoryManager._compressOldInteractions:
old summaries are folded exactly when the summaries list has grown past
maxSummaries. -/
def maybeCompressSummaries (env : MemEnv) (st : MemoryManager) : MemoryManager :=
  if st.summaries.length > st.maxSummaries then compressOldSummaries env st else st

/-- MemoryManager._compressOldInteractions: fold the oldest
(length - maxInteractions + 1) interactions into one new summary appended to
the summaries list, drop them from the active list, and fold old summaries in
turn when the summaries list has grown past maxSummaries. -/
def compressOldInteractions (env : MemEnv) (st : MemoryManager) : MemoryManager :=
  let toCompress := jsSliceTo st.interactions ((st.interactions.length : ℤ) - st.maxInteractions + 1)
  match toCompress with
  | [] => st
  | first :: rest =>
    let conversationText :=
      String.intercalate "\n\n" ((first :: rest).map (fun i => i.role ++ ": " ++ i.text))
    let summaryText :=
      if st.summaryAgentConfigured then
        match env.summarize
          ("Compress this conversation into a concise summary:\n\n" ++ conversationText) with
        | some t => t
        | none => createBasicSummary (first :: rest)
      else createBasicSummary (first :: rest)
    let last := (rest.getLast?).getD first
    let summary : Summary :=
      { range := { start := first.ts, stop := last.ts, count := (first :: rest).length }
        text := summaryText
        ts := env.now
        hash := env.hashSummary summaryText env.now
        signatureAlgorithm := st.signatureAlgorithm }
    maybeCompressSummaries env { st with
      summaries := st.summaries ++ [summary]
      interactions := st.interactions.drop (first :: rest).length }

/-- MemoryManager.addInteraction: hash and append the interaction, bump
totalCount, and compress the oldest interactions when the active list has
grown past maxInteractions. The trailing full-state save is persistence I/O
outside the model. -/
def addInteraction (env : MemEnv) (st : MemoryManager) (inp : InteractionInput) :
    MemoryManager :=
  let ts := inp.ts.getD env.now
  let signedInteraction : Interaction :=
    { role := inp.role
      text := inp.text
      ts := ts
      hash := env.hashInteraction inp.role inp.text ts
      metadata := inp.metadata
      signatureAlgorithm := st.signatureAlgorithm }
  let st1 := { st with
    interactions := st.interactions ++ [signedInteraction]
    totalCount := st.totalCount + 1 }
  if st1.interactions.length > st1.maxInteractions then compressOldInteractions env st1
  else st1

/-- MemoryManager.clearMemory: reset the lists and totalCount. -/
def clearMemory (st : MemoryManager) : MemoryManager :=
  { st with interactions := [], summaries := [], totalCount := 0 }

/-- Statistics block of MemoryManager.getStats (the persistence settings of
the source record are outside the model). -/
structure MemoryStats where
  activeInteractions : ℕ
  maxInteractions : ℕ
  totalSummaries : ℕ
  maxSummaries : ℕ
  totalCount : ℕ
  signatureAlgorithm : String
deriving DecidableEq, Repr

/-- MemoryManager.getStats: a read-only projection of the state. -/
def getStats (st : MemoryManager) : MemoryStats :=
  { activeInteractions := st.interactions.length
    maxInteractions := st.maxInteractions
    totalSummaries := st.summaries.length
    maxSummaries := st.maxSummaries
    totalCount := st.totalCount
    signatureAlgorithm := st.signatureAlgorithm }

/-- Context object built by MemoryManager.buildContext; its memoryStats
block carries the active count, summary count and total count. -/
structure MemoryContext where
  totalInteractions : ℕ
  recentInteractions : List (String × String × ℕ)
  summaries : List (String × SummaryRange × ℕ)
  statsActiveInteractions : ℕ
  statsTotalSummaries : ℕ
  statsTotalCount : ℕ
deriving DecidableEq, Repr

/-- MemoryManager.buildContext: a read-only view of the last 10 active
interactions, all summaries and the memory statistics. -/
def buildContext (st : MemoryManager) : MemoryContext :=
  { totalInteractions := st.totalCount
    recentInteractions :=
      (st.interactions.drop (st.interactions.length - 10)).map (fun i => (i.role, i.text, i.ts))
    summaries := st.summaries.map (fun s => (s.text, s.range, s.ts))
    statsActiveInteractions := st.interactions.length
    statsTotalSummaries := st.summaries.length
    statsTotalCount := st.totalCount }

/-- Fold a sequence of addInteraction calls, each with its own environment
(clock tick and collaborator outcomes), over a starting state. -/
def runAdds (calls : List (MemEnv × InteractionInput)) (st : MemoryManager) :
    MemoryManager :=
  calls.foldl (fun s c => addInteraction c.1 s c.2) st

/-- Interactions represented by the summaries, via range.count. -/
def summarizedCount (st : MemoryManager) : ℕ :=
  (st.summaries.map (fun s => s.range.count)).sum

/-! ### Concrete fixtures used by witnesses and counterexamples -/

/-- Observation of the futureSelfBridge metadata of a returned result. -/
def outcomeMeta : ExecOutcome → Option BridgeMeta
  | ExecOutcome.returned (some r) => some r.futureSelfBridge
  | _ => none

/-- A transport whose planner always fails over to the default schema and
whose agent always answers with an empty, complete result. -/
def fsEnvC : FSEnv :=
  { plan := fun _ => none, exec := fun _ _ => Except.ok {} }

/-- A transport whose agent always answers with a continuation request, so
every analysis is incomplete. -/
def fsEnvI : FSEnv :=
  { plan := fun _ => none, exec := fun _ _ => Except.ok { continue_ := some true } }

/-- The penalty-laden execution result of the confidence scenario. -/
def rPenalty : ExecResult :=
  { missingContext := some ["a", "b", "c", "d"]
    continue_ := some true
    questionForUser := some true }

/-- A memory environment with a fixed clock, a summarizer that always fails
over to the local fallback, and trivial hash collaborators. -/
def env0 : MemEnv :=
  { now := 0, summarize := fun _ => none
    hashInteraction := fun _ _ _ => "", hashSummary := fun _ _ => "" }

/-- A user turn. -/
def inpU : InteractionInput := { role := "user", text := "u" }

/-- 25 user turns into a fresh manager with maxInteractions 21 (and the
default maxSummaries 3). -/
def mem25 : MemoryManager :=
  runAdds (List.replicate 25 (env0, inpU))
    (MemoryManager.init { maxInteractions := some 21 })

/-- 6 user turns into a fresh manager with maxInteractions 1 and
maxSummaries 2: each second turn creates a summary of 2 interactions, and the
third summary triggers meta-summary folding. -/
def mem6 : MemoryManager :=
  runAdds (List.replicate 6 (env0, inpU))
    (MemoryManager.init { maxInteractions := some 1, maxSummaries := some 2 })

/-- 2 user turns into a fresh manager with maxInteractions 1 and
maxSummaries 0. -/
def mem2c : MemoryManager :=
  runAdds (List.replicate 2 (env0, inpU))
    (MemoryManager.init { maxInteractions := some 1, maxSummaries := some 0 })

/-- A fresh default manager after one addInteraction call. -/
def st9 : MemoryManager := addInteraction env0 (MemoryManager.init {}) inpU

/-! ### Supporting lemmas -/

lemma optFalsy_iff (o : Option Bool) : optFalsy o ↔ o ≠ some true := by
  unfold optFalsy
  rcases o with _ | b
  · simp
  · cases b <;> simp

lemma executeLoop_of_lt (env : FSEnv) (agentType query sig : String) (aR : Bool)
    (m : ℤ) (a : ℕ) (acc : AccCtx) (h : m < (a : ℤ)) :
    executeLoop env agentType query sig aR m a acc =
      { outcome := ExecOutcome.returned none, cycles := 0, sent := [] } := by
  unfold executeLoop
  rw [dif_neg (by omega)]

/-! ### Claims C3, C7, C10 -/

/-- Claim C3: for every execution result, the SelfAwareness record computed
by analyzeSelfAwareness has complete = true exactly when the missingContext
list is empty (an absent field counting as empty), the continue field is
falsy and the questionForUser field is falsy. -/
theorem analyze_complete_iff (r : ExecResult) :
    (analyzeSelfAwareness r).complete = true ↔
      r.missingContext.getD [] = [] ∧ optFalsy r.continue_ ∧ optFalsy r.questionForUser := by
  unfold analyzeSelfAwareness
  simp only [optFalsy_iff, Bool.and_eq_true, Bool.not_eq_true', beq_eq_false_iff_ne,
    beq_iff_eq, ne_eq, List.length_eq_zero]
  tauto

/-- Claim C7: calculateConfidence equals 1.0 minus 0.2 per missing-context
item counting at most 3 items, minus 0.15 when continue is true, minus 0.15
when questionForUser is true, clamped to the unit interval; the scenario
result with four missing items and both flags set analyzes to complete false
with confidence exactly 0.1, and a result with no penalty conditions scores
exactly 1.0. -/
theorem confidence_spec :
    (∀ r : ExecResult,
      calculateConfidence r =
        clamp01 (1 - 2/10 * ((min (r.missingContext.getD []).length 3 : ℕ) : ℚ)
          - (if r.continue_ = some true then 15/100 else 0)
          - (if r.questionForUser = some true then 15/100 else 0))) ∧
    (analyzeSelfAwareness rPenalty).complete = false ∧
    (analyzeSelfAwareness rPenalty).confidence = 1/10 ∧
    calculateConfidence {} = 1 := by
  refine ⟨?_, by decide, ?_, ?_⟩
  · intro r
    unfold calculateConfidence clamp01
    rcases hm : r.missingContext with _ | l
    · by_cases hc : r.continue_ = some true <;> by_cases hq : r.questionForUser = some true <;>
        simp [hc, hq, beq_iff_eq]
    · rcases Nat.eq_zero_or_pos l.length with hl | hl
      · by_cases hc : r.continue_ = some true <;> by_cases hq : r.questionForUser = some true <;>
          simp [hc, hq, hl, beq_iff_eq]
      · by_cases hc : r.continue_ = some true <;> by_cases hq : r.questionForUser = some true <;>
          simp [hc, hq, hl, beq_iff_eq]
  · rw [show (analyzeSelfAwareness rPenalty).confidence = calculateConfidence rPenalty from rfl]
    simp only [rPenalty, calculateConfidence, clamp01]
    norm_num [min_def, max_def]
  · simp only [calculateConfidence, clamp01]
    norm_num [min_def, max_def]

/-- Claim C10: for every negative maxRetries and any autoRetry setting, the
retry loop body never runs: no planning or execution request is issued, zero
cycles are performed, and the call resolves to undefined. -/
theorem fsb_negative_maxRetries (m : ℤ) (hm : m < 0) (env : FSEnv)
    (agentType query : String) (opts : ExecOptions)
    (hmr : opts.maxRetries = some m) :
    execute env agentType query opts =
      { outcome := ExecOutcome.returned none, cycles := 0, sent := [] } := by
  show executeLoop env agentType query (opts.signatureAlgorithm.getD "PQ")
      (opts.autoRetry.getD true) (opts.maxRetries.getD 3) 0 _ = _
  rw [hmr, Option.getD_some]
  exact executeLoop_of_lt _ _ _ _ _ _ _ _ (by omega)

/-- Witness for C10 at maxRetries = -1. -/
theorem fsb_negative_maxRetries_witness :
    execute fsEnvC "terminal" "q" { maxRetries := some (-1) } =
      { outcome := ExecOutcome.returned none, cycles := 0, sent := [] } :=
  fsb_negative_maxRetries (-1) (by decide) fsEnvC "terminal" "q" _ rfl

/-! ### Retry loop lemmas -/

lemma executeLoop_cycles_le (env : FSEnv) (agentType query sig : String)
    (aR : Bool) (m : ℤ) :
    ∀ (k a : ℕ) (acc : AccCtx), (m + 1 - (a : ℤ)).toNat ≤ k →
      (executeLoop env agentType query sig aR m a acc).cycles ≤
        (m + 1 - (a : ℤ)).toNat := by
  intro k
  induction k with
  | zero =>
    intro a acc hk
    rw [executeLoop_of_lt env agentType query sig aR m a acc (by omega)]
    exact Nat.zero_le _
  | succ k ih =>
    intro a acc hk
    by_cases hle : (a : ℤ) ≤ m
    · unfold executeLoop
      rw [dif_pos hle]
      dsimp only
      split
      · dsimp only
        omega
      · split
        · dsimp only
          omega
        · split
          · dsimp only
            omega
          · rename_i execution heq hcmp hstop
            dsimp only
            have h2 := ih (a + 1)
              { caller := acc.caller
                previousAttempts := acc.previousAttempts + 1
                missingContextFromPreviousRun :=
                  (analyzeSelfAwareness execution).missingContext
                previousSchema := some (planSchema env agentType a)
                previousResponse := some execution.response } (by omega)
            omega
    · rw [executeLoop_of_lt env agentType query sig aR m a acc (by omega)]
      dsimp only
      omega

lemma executeLoop_allIncomplete (env : FSEnv) (agentType query sig : String) (N : ℕ)
    (Hinc : ∀ i b, ∃ r, env.exec i b = Except.ok r ∧
      (analyzeSelfAwareness r).complete = false) :
    ∀ (k a : ℕ) (acc : AccCtx), a + k = N + 1 → 1 ≤ k →
      (executeLoop env agentType query sig true (N : ℤ) a acc).cycles = k ∧
      ((outcomeMeta (executeLoop env agentType query sig true (N : ℤ) a acc).outcome).map
          (fun meta => (meta.complete, meta.reason, meta.attempts)))
        = some (false, some "max_retries_reached", N + 1) := by
  intro k
  induction k with
  | zero => intro a acc _ h1; omega
  | succ k ih =>
    intro a acc hsum _
    have hle : (a : ℤ) ≤ (N : ℤ) := by omega
    obtain ⟨r, hr, hrc⟩ :=
      Hinc a (mkExecRequestBody query acc (planSchema env agentType a) sig)
    unfold executeLoop
    rw [dif_pos hle]
    dsimp only
    rw [hr]
    dsimp only
    rw [if_neg (by simp [hrc])]
    rcases Nat.eq_zero_or_pos k with hk0 | hkpos
    · subst hk0
      have ha : a = N := by omega
      rw [dif_pos (Or.inr (by omega))]
      subst ha
      refine ⟨rfl, ?_⟩
      dsimp only [outcomeMeta]
      rw [if_pos (by omega)]
      rfl
    · rw [dif_neg (by simp; omega)]
      obtain ⟨hcyc, hout⟩ := ih (a + 1) _ (by omega) (by omega)
      exact ⟨by dsimp only; omega, hout⟩

lemma executeLoop_sent_sig (env : FSEnv) (agentType query sig : String)
    (aR : Bool) (m : ℤ) :
    ∀ (k a : ℕ) (acc : AccCtx), (m + 1 - (a : ℤ)).toNat ≤ k →
      ∀ b ∈ (executeLoop env agentType query sig aR m a acc).sent,
        b.signatureAlgorithm = (if sig = "" then none else some sig) := by
  intro k
  induction k with
  | zero =>
    intro a acc hk
    rw [executeLoop_of_lt env agentType query sig aR m a acc (by omega)]
    intro b hb
    simp at hb
  | succ k ih =>
    intro a acc hk
    by_cases hle : (a : ℤ) ≤ m
    · unfold executeLoop
      rw [dif_pos hle]
      dsimp only
      split
      · intro b hb
        rw [List.mem_singleton] at hb
        subst hb
        rfl
      · split
        · intro b hb
          rw [List.mem_singleton] at hb
          subst hb
          rfl
        · split
          · intro b hb
            rw [List.mem_singleton] at hb
            subst hb
            rfl
          · intro b hb
            rw [List.mem_cons] at hb
            rcases hb with hb | hb
            · subst hb
              rfl
            · exact ih (a + 1) _ (by omega) b hb
    · rw [executeLoop_of_lt env agentType query sig aR m a acc (by omega)]
      intro b hb
      simp at hb

/-! ### Claim C1 -/

/-- Claim C1: with maxRetries = N, the orchestrator performs at most N+1
plan/execute/analyze cycles; when autoRetry resolves to true and every
execution succeeds with an analysis that is incomplete, it performs exactly
N+1 cycles and returns a result whose futureSelfBridge block has complete
false, reason max_retries_reached, and attempts N+1. -/
theorem fsb_retry_cap (N : ℕ) (env : FSEnv) (agentType query : String)
    (opts : ExecOptions) (hmr : opts.maxRetries = some (N : ℤ)) :
    (execute env agentType query opts).cycles ≤ N + 1 ∧
    (opts.autoRetry.getD true = true →
      (∀ i b, ∃ r, env.exec i b = Except.ok r ∧
        (analyzeSelfAwareness r).complete = false) →
      (execute env agentType query opts).cycles = N + 1 ∧
      ((outcomeMeta (execute env agentType query opts).outcome).map
          (fun meta => (meta.complete, meta.reason, meta.attempts)))
        = some (false, some "max_retries_reached", N + 1)) := by
  have hsh : execute env agentType query opts =
      executeLoop env agentType query (opts.signatureAlgorithm.getD "PQ")
        (opts.autoRetry.getD true) (N : ℤ) 0
        { caller := opts.context, previousAttempts := 0
          missingContextFromPreviousRun := [], previousSchema := none
          previousResponse := none } := by
    unfold execute
    rw [hmr, Option.getD_some]
  constructor
  · rw [hsh]
    have h := executeLoop_cycles_le env agentType query
      (opts.signatureAlgorithm.getD "PQ") (opts.autoRetry.getD true) (N : ℤ)
      (N + 1) 0
      { caller := opts.context, previousAttempts := 0
        missingContextFromPreviousRun := [], previousSchema := none
        previousResponse := none } (by omega)
    omega
  · intro har Hinc
    rw [hsh, har]
    exact executeLoop_allIncomplete env agentType query
      (opts.signatureAlgorithm.getD "PQ") N Hinc (N + 1) 0 _ (by omega) (by omega)

/-- Witness for C1 at N = 1 with an always-incomplete agent. -/
theorem fsb_retry_cap_witness :
    (execute fsEnvI "terminal" "q" { maxRetries := some 1 }).cycles = 2 ∧
    ((outcomeMeta (execute fsEnvI "terminal" "q" { maxRetries := some 1 }).outcome).map
        (fun meta => (meta.complete, meta.reason, meta.attempts)))
      = some (false, some "max_retries_reached", 2) := by
  have h := fsb_retry_cap 1 fsEnvI "terminal" "q" { maxRetries := some 1 } rfl
  exact h.2 rfl (fun i b => ⟨{ continue_ := some true }, rfl, by decide⟩)

/-! ### Claim C8 -/

lemma execute_fsEnvC_sent (opts : ExecOptions) (hm : opts.maxRetries = none) :
    (execute fsEnvC "terminal" "q" opts).sent =
      [mkExecRequestBody "q"
        { caller := opts.context, previousAttempts := 0
          missingContextFromPreviousRun := [], previousSchema := none
          previousResponse := none }
        (getDefaultSchema "terminal") (opts.signatureAlgorithm.getD "PQ")] := by
  show (executeLoop fsEnvC "terminal" "q" (opts.signatureAlgorithm.getD "PQ")
      (opts.autoRetry.getD true) (opts.maxRetries.getD 3) 0
      { caller := opts.context, previousAttempts := 0
        missingContextFromPreviousRun := [], previousSchema := none
        previousResponse := none }).sent = _
  rw [hm, Option.getD_none]
  unfold executeLoop
  rw [dif_pos (by norm_num)]
  dsimp only [fsEnvC]
  rw [if_pos (by decide)]
  rfl

/-- Counterexample for C8: with the signatureAlgorithm option omitted and a
completing agent, the single request body sent to the agent endpoint carries
the top-level field signatureAlgorithm = "PQ" — not an absent field that
would let the server default of ecdsa apply. -/
theorem signatureAlgorithm_default_cex :
    (execute fsEnvC "terminal" "q" {}).sent.map (fun b => b.signatureAlgorithm)
        = [some "PQ"] ∧
      (some "PQ" : Option String) ≠ none := by
  rw [execute_fsEnvC_sent {} rfl]
  exact ⟨by simp [mkExecRequestBody], by simp⟩

/-- Claim C8 (amended): when the caller omits the signatureAlgorithm option,
FutureSelfBridge.execute defaults it to the string PQ, so every request body
sent to the agent endpoint carries signatureAlgorithm = "PQ" at top level
(the server resolves PQ to ml-dsa-87, not to the ecdsa default); when the
caller supplies a nonempty algorithm string, every request body sent carries
exactly that value at top level, not nested inside the context object (the
context carries only the accumulated context, expectedSchema and
selfAwareMode). -/
theorem signatureAlgorithm_topLevel (env : FSEnv) (agentType query : String)
    (opts : ExecOptions) :
    (opts.signatureAlgorithm = none →
      ∀ b ∈ (execute env agentType query opts).sent,
        b.signatureAlgorithm = some "PQ") ∧
    (∀ algo : String, opts.signatureAlgorithm = some algo → algo ≠ "" →
      ∀ b ∈ (execute env agentType query opts).sent,
        b.signatureAlgorithm = some algo) := by
  have base : ∀ b ∈ (execute env agentType query opts).sent,
      b.signatureAlgorithm =
        (if opts.signatureAlgorithm.getD "PQ" = "" then none
         else some (opts.signatureAlgorithm.getD "PQ")) := by
    show ∀ b ∈ (executeLoop env agentType query (opts.signatureAlgorithm.getD "PQ")
        (opts.autoRetry.getD true) (opts.maxRetries.getD 3) 0
        { caller := opts.context, previousAttempts := 0
          missingContextFromPreviousRun := [], previousSchema := none
          previousResponse := none }).sent, _
    exact executeLoop_sent_sig env agentType query _ _ _
      ((opts.maxRetries.getD 3 + 1 - ((0 : ℕ) : ℤ)).toNat) 0 _ (by omega)
  constructor
  · intro h b hb
    have hbase := base b hb
    rw [h, Option.getD_none, if_neg (by decide)] at hbase
    exact hbase
  · intro algo ha hne b hb
    have hbase := base b hb
    rw [ha, Option.getD_some, if_neg hne] at hbase
    exact hbase

/-- Witness for the amended C8: a supplied ml-dsa-87 lands at the top level
of the one request body a completing run sends. -/
theorem signatureAlgorithm_topLevel_witness :
    (execute fsEnvC "terminal" "q" { signatureAlgorithm := some "ml-dsa-87" }).sent.map
      (fun b => b.signatureAlgorithm) = [some "ml-dsa-87"] := by
  have hall := (signatureAlgorithm_topLevel fsEnvC "terminal" "q"
    { signatureAlgorithm := some "ml-dsa-87" }).2 "ml-dsa-87" rfl (by decide)
  have hs := execute_fsEnvC_sent { signatureAlgorithm := some "ml-dsa-87" } rfl
  rw [hs] at hall ⊢
  rw [List.map_singleton, hall _ (List.mem_singleton_self _)]

/-! ### Memory Manager lemmas -/

lemma jsSliceTo_eq_take {α : Type} (l : List α) (e : ℤ) :
    ∃ n : ℕ, jsSliceTo l e = l.take n := by
  unfold jsSliceTo
  split <;> exact ⟨_, rfl⟩

lemma jsSliceTo_two {α : Type} (l : List α) (m : ℕ) (h : l.length = m + 1) :
    jsSliceTo l ((l.length : ℤ) - m + 1) = l.take 2 := by
  unfold jsSliceTo
  rw [if_neg (by omega)]
  congr 1
  omega

lemma take_append_drop_length {α : Type} (l : List α) (n : ℕ) :
    l.take n ++ l.drop (l.take n).length = l := by
  rw [List.length_take]
  rcases le_total n l.length with h | h
  · rw [Nat.min_eq_left h, List.take_append_drop]
  · rw [Nat.min_eq_right h, List.take_of_length_le h, List.drop_length, List.append_nil]

lemma sum_map_take_drop {α : Type} (g : α → ℕ) (l : List α) (n : ℕ) :
    ((l.take n).map g).sum + ((l.drop (l.take n).length).map g).sum = (l.map g).sum := by
  conv_rhs => rw [← take_append_drop_length l n]
  rw [List.map_append, List.sum_append]

lemma compressOldSummaries_const (env : MemEnv) (st : MemoryManager) :
    (compressOldSummaries env st).interactions = st.interactions ∧
    (compressOldSummaries env st).totalCount = st.totalCount ∧
    (compressOldSummaries env st).maxInteractions = st.maxInteractions ∧
    (compressOldSummaries env st).maxSummaries = st.maxSummaries ∧
    (compressOldSummaries env st).summaryAgentConfigured = st.summaryAgentConfigured ∧
    (compressOldSummaries env st).signatureAlgorithm = st.signatureAlgorithm := by
  unfold compressOldSummaries
  obtain ⟨n, hn⟩ := jsSliceTo_eq_take st.summaries ((st.summaries.length : ℤ) - st.maxSummaries + 1)
  rw [hn]
  cases hc : st.summaries.take n with
  | nil => exact ⟨rfl, rfl, rfl, rfl, rfl, rfl⟩
  | cons first rest => exact ⟨rfl, rfl, rfl, rfl, rfl, rfl⟩

lemma compressOldSummaries_sum (env : MemEnv) (st : MemoryManager) :
    summarizedCount (compressOldSummaries env st) = summarizedCount st := by
  unfold compressOldSummaries summarizedCount
  obtain ⟨n, hn⟩ := jsSliceTo_eq_take st.summaries ((st.summaries.length : ℤ) - st.maxSummaries + 1)
  rw [hn]
  cases hc : st.summaries.take n with
  | nil => rfl
  | cons first rest =>
    dsimp only
    rw [List.map_cons, List.sum_cons, ← hc]
    exact sum_map_take_drop (fun s => s.range.count) st.summaries n

lemma compressOldSummaries_len (env : MemEnv) (st : MemoryManager)
    (h : st.summaries.length = st.maxSummaries + 1) (hS : 1 ≤ st.maxSummaries) :
    (compressOldSummaries env st).summaries.length = st.maxSummaries := by
  unfold compressOldSummaries
  rw [jsSliceTo_two st.summaries st.maxSummaries h]
  obtain ⟨x, y, tl, hl⟩ : ∃ x y tl, st.summaries = x :: y :: tl := by
    rcases hs : st.summaries with _ | ⟨x, rest⟩
    · rw [hs] at h
      simp at h
    · rcases rest with _ | ⟨y, tl⟩
      · rw [hs] at h
        simp at h
        omega
      · exact ⟨x, y, tl, rfl⟩
  rw [hl]
  dsimp only [List.take, List.length, List.drop]
  rw [hl] at h
  simp at h
  omega

lemma maybeCompressSummaries_const (env : MemEnv) (st : MemoryManager) :
    (maybeCompressSummaries env st).interactions = st.interactions ∧
    (maybeCompressSummaries env st).totalCount = st.totalCount ∧
    (maybeCompressSummaries env st).maxInteractions = st.maxInteractions ∧
    (maybeCompressSummaries env st).maxSummaries = st.maxSummaries := by
  unfold maybeCompressSummaries
  split
  · obtain ⟨h1, h2, h3, h4, _, _⟩ := compressOldSummaries_const env st
    exact ⟨h1, h2, h3, h4⟩
  · exact ⟨rfl, rfl, rfl, rfl⟩

lemma maybeCompressSummaries_sum (env : MemEnv) (st : MemoryManager) :
    summarizedCount (maybeCompressSummaries env st) = summarizedCount st := by
  unfold maybeCompressSummaries
  split
  · exact compressOldSummaries_sum env st
  · rfl

lemma maybeCompressSummaries_len (env : MemEnv) (st : MemoryManager)
    (h0 : st.summaries.length ≤ st.maxSummaries + 1) (hS : 1 ≤ st.maxSummaries) :
    (maybeCompressSummaries env st).summaries.length ≤ st.maxSummaries := by
  unfold maybeCompressSummaries
  split
  · rename_i hgt
    rw [compressOldSummaries_len env st (by omega) hS]
  · rename_i hle
    omega

lemma compressOldInteractions_const (env : MemEnv) (st : MemoryManager) :
    (compressOldInteractions env st).totalCount = st.totalCount ∧
    (compressOldInteractions env st).maxInteractions = st.maxInteractions ∧
    (compressOldInteractions env st).maxSummaries = st.maxSummaries := by
  unfold compressOldInteractions
  obtain ⟨n, hn⟩ := jsSliceTo_eq_take st.interactions
    ((st.interactions.length : ℤ) - st.maxInteractions + 1)
  rw [hn]
  cases hc : st.interactions.take n with
  | nil => exact ⟨rfl, rfl, rfl⟩
  | cons first rest =>
    dsimp only
    obtain ⟨_, h2, h3, h4⟩ := maybeCompressSummaries_const env _
    exact ⟨h2, h3, h4⟩

lemma compressOldInteractions_conservation (env : MemEnv) (st : MemoryManager) :
    summarizedCount (compressOldInteractions env st) +
        (compressOldInteractions env st).interactions.length =
      summarizedCount st + st.interactions.length := by
  unfold compressOldInteractions
  obtain ⟨n, hn⟩ := jsSliceTo_eq_take st.interactions
    ((st.interactions.length : ℤ) - st.maxInteractions + 1)
  rw [hn]
  cases hc : st.interactions.take n with
  | nil => rfl
  | cons first rest =>
    have hk : (first :: rest).length ≤ st.interactions.length := by
      rw [← hc, List.length_take]
      exact Nat.min_le_right _ _
    dsimp only
    rw [maybeCompressSummaries_sum, (maybeCompressSummaries_const env _).1]
    simp only [summarizedCount, List.map_append, List.sum_append, List.map_cons,
      List.sum_cons, List.map_nil, List.sum_nil, List.length_drop, List.length_cons]
    simp only [List.length_cons] at hk
    omega

lemma compressOldInteractions_bounds (env : MemEnv) (st : MemoryManager)
    (hI : st.interactions.length = st.maxInteractions + 1)
    (hS0 : st.summaries.length ≤ st.maxSummaries) (hS : 1 ≤ st.maxSummaries) :
    (compressOldInteractions env st).interactions.length ≤ st.maxInteractions ∧
    (compressOldInteractions env st).summaries.length ≤ st.maxSummaries := by
  unfold compressOldInteractions
  rw [jsSliceTo_two st.interactions st.maxInteractions hI]
  cases hc : st.interactions.take 2 with
  | nil =>
    exfalso
    have hlen := congrArg List.length hc
    rw [List.length_take] at hlen
    simp only [List.length_nil] at hlen
    omega
  | cons first rest =>
    have hk : (first :: rest).length = min 2 st.interactions.length := by
      rw [← hc, List.length_take]
    dsimp only
    constructor
    · rw [(maybeCompressSummaries_const env _).1]
      simp only [List.length_drop, List.length_cons]
      simp only [List.length_cons] at hk
      omega
    · refine maybeCompressSummaries_len env _ ?_ hS
      simp only [List.length_append, List.length_cons, List.length_nil]
      omega

lemma addInteraction_const (env : MemEnv) (st : MemoryManager) (inp : InteractionInput) :
    (addInteraction env st inp).maxInteractions = st.maxInteractions ∧
    (addInteraction env st inp).maxSummaries = st.maxSummaries ∧
    (addInteraction env st inp).totalCount = st.totalCount + 1 := by
  unfold addInteraction
  dsimp only
  split
  · obtain ⟨h1, h2, h3⟩ := compressOldInteractions_const env _
    exact ⟨h2, h3, h1⟩
  · exact ⟨rfl, rfl, rfl⟩

lemma addInteraction_conservation (env : MemEnv) (st : MemoryManager)
    (inp : InteractionInput) :
    summarizedCount (addInteraction env st inp) +
        (addInteraction env st inp).interactions.length =
      summarizedCount st + st.interactions.length + 1 := by
  unfold addInteraction
  dsimp only
  split
  · rw [compressOldInteractions_conservation]
    simp only [summarizedCount, List.length_append, List.length_cons, List.length_nil]
    omega
  · simp only [summarizedCount, List.length_append, List.length_cons, List.length_nil]
    omega

lemma addInteraction_bounds (env : MemEnv) (st : MemoryManager) (inp : InteractionInput)
    (hI : st.interactions.length ≤ st.maxInteractions)
    (hS0 : st.summaries.length ≤ st.maxSummaries) (hS : 1 ≤ st.maxSummaries) :
    (addInteraction env st inp).interactions.length ≤ st.maxInteractions ∧
    (addInteraction env st inp).summaries.length ≤ st.maxSummaries := by
  unfold addInteraction
  dsimp only
  split
  · rename_i hgt
    simp only [List.length_append, List.length_cons, List.length_nil] at hgt
    exact compressOldInteractions_bounds env _
      (by simp only [List.length_append, List.length_cons, List.length_nil]; omega) hS0 hS
  · rename_i hle
    simp only [List.length_append, List.length_cons, List.length_nil] at hle
    constructor
    · simp only [List.length_append, List.length_cons, List.length_nil]
      omega
    · exact hS0

/-- The conservation invariant: interactions folded into summaries plus the
active interactions account exactly for totalCount. -/
def memInv (st : MemoryManager) : Prop :=
  summarizedCount st + st.interactions.length = st.totalCount

lemma runAdds_cons (c : MemEnv × InteractionInput)
    (cs : List (MemEnv × InteractionInput)) (st : MemoryManager) :
    runAdds (c :: cs) st = runAdds cs (addInteraction c.1 st c.2) := rfl

lemma runAdds_memInv (calls : List (MemEnv × InteractionInput)) :
    ∀ st : MemoryManager, memInv st → memInv (runAdds calls st) := by
  induction calls with
  | nil => intro st h; exact h
  | cons c cs ih =>
    intro st h
    rw [runAdds_cons]
    apply ih
    unfold memInv at h ⊢
    have h1 := addInteraction_conservation c.1 st c.2
    have h2 := (addInteraction_const c.1 st c.2).2.2
    omega

lemma runAdds_boundsAux (calls : List (MemEnv × InteractionInput)) :
    ∀ st : MemoryManager, 1 ≤ st.maxSummaries →
      st.interactions.length ≤ st.maxInteractions →
      st.summaries.length ≤ st.maxSummaries →
      (runAdds calls st).interactions.length ≤ st.maxInteractions ∧
      (runAdds calls st).summaries.length ≤ st.maxSummaries := by
  induction calls with
  | nil => intro st _ hI hS0; exact ⟨hI, hS0⟩
  | cons c cs ih =>
    intro st hS hI hS0
    rw [runAdds_cons]
    obtain ⟨hmi, hms, _⟩ := addInteraction_const c.1 st c.2
    obtain ⟨bI, bS⟩ := addInteraction_bounds c.1 st c.2 hI hS0 hS
    have := ih (addInteraction c.1 st c.2) (by omega) (by omega) (by omega)
    omega

/-! ### Claims C2, C4, C5, C6, C9 -/

/-- Counterexample for C2: with maxSummaries = 0 (and maxInteractions = 1),
after the second addInteraction call the summaries list has length 1, which
exceeds maxSummaries — meta-summary folding always leaves one summary behind,
so the bound fails for this configuration. -/
theorem memory_bounds_maxSummaries_zero_cex :
    mem2c.summaries.length = 1 ∧ mem2c.maxSummaries = 0 := by decide

/-- Claim C2 (amended): for every configuration whose resolved maxSummaries
is at least 1 and every sequence of addInteraction calls on a fresh manager,
after each call the active interaction list has length at most
maxInteractions and the summaries list has length at most maxSummaries
(every state reached after a call is the fold of some call list, so
quantifying over the list covers each intermediate observation). -/
theorem memory_bounds (opts : MemoryOptions) (hS : 1 ≤ opts.maxSummaries.getD 3)
    (calls : List (MemEnv × InteractionInput)) :
    (runAdds calls (MemoryManager.init opts)).interactions.length ≤
        opts.maxInteractions.getD 21 ∧
      (runAdds calls (MemoryManager.init opts)).summaries.length ≤
        opts.maxSummaries.getD 3 :=
  runAdds_boundsAux calls (MemoryManager.init opts) hS (Nat.zero_le _) (Nat.zero_le _)

/-- Witness for the amended C2 at the default configuration. -/
theorem memory_bounds_witness :
    (runAdds [(env0, inpU)] (MemoryManager.init {})).interactions.length ≤ 21 ∧
    (runAdds [(env0, inpU)] (MemoryManager.init {})).summaries.length ≤ 3 :=
  memory_bounds {} (by decide) [(env0, inpU)]

/-- Claim C4: starting from a fresh, non-loaded manager, after any sequence
of addInteraction calls the interactions represented by summaries (the sum of
range.count) plus the active interaction count equals totalCount. -/
theorem memory_conservation (opts : MemoryOptions)
    (calls : List (MemEnv × InteractionInput)) :
    summarizedCount (runAdds calls (MemoryManager.init opts)) +
        (runAdds calls (MemoryManager.init opts)).interactions.length =
      (runAdds calls (MemoryManager.init opts)).totalCount :=
  runAdds_memInv calls (MemoryManager.init opts) rfl

/-- Counterexample for C5: adding 25 interactions to a fresh manager with
maxInteractions = 21 does not leave one summary and 20 active interactions —
compression runs eagerly on each overflowing call and folds 2 interactions at
a time, never 5. -/
theorem scenario25_cex :
    mem25.summaries.length ≠ 1 ∧ mem25.interactions.length ≠ 20 := by decide

/-- Claim C5 (amended): adding 25 interactions to a fresh manager with
maxInteractions = 21 yields exactly two summaries, each covering 2
interactions (the active list only ever reaches length 22 before an eager
fold of 22 - 21 + 1 = 2), leaving 21 active interactions and totalCount 25. -/
theorem scenario25_amended :
    mem25.summaries.length = 2 ∧
    mem25.summaries.map (fun s => s.range.count) = [2, 2] ∧
    mem25.interactions.length = 21 ∧
    mem25.totalCount = 25 := by decide

/-- Counterexample for C6: when the third summary is created under
maxSummaries = 2, the summaries list immediately afterwards has length 2, not
1 — the meta-summary replaces only the folded oldest two, and the newest
summary survives beside it. -/
theorem metaSummary_cex : mem6.summaries.length ≠ 1 := by decide

/-- Claim C6 (amended): with maxSummaries = 2, when a third summary is
created the two oldest summaries are folded into one meta-summary whose
range.metaLevel is true and whose range.count (4) is the sum of the folded
counts (2 + 2), and immediately afterwards the summaries list holds exactly
the meta-summary followed by the newest summary: length 2. -/
theorem metaSummary_amended :
    mem6.summaries.map (fun s => (s.range.count, s.range.metaLevel)) =
      [(4, true), (2, false)] ∧
    mem6.summaries.length = 2 := by decide

/-- Counterexample for C9: clearMemory is one of the public operations the
claim ranges over, and it resets totalCount to 0, so totalCount decreases
across it whenever anything was added before. -/
theorem totalCount_clearMemory_cex :
    (clearMemory st9).totalCount < st9.totalCount := by decide

/-- Claim C9 (amended): totalCount never decreases across addInteraction
calls (each one increases it by exactly 1, and buildContext and getStats are
read-only), but clearMemory resets it to 0. -/
theorem totalCount_monotone_amended :
    (∀ (env : MemEnv) (st : MemoryManager) (inp : InteractionInput),
      st.totalCount ≤ (addInteraction env st inp).totalCount) ∧
    (∀ st : MemoryManager, (clearMemory st).totalCount = 0) := by
  constructor
  · intro env st inp
    have h := (addInteraction_const env st inp).2.2
    omega
  · intro st
    rfl

end SchemaICU
